import Mathlib

/-!
Verification of the PlugPredict occupancy forecaster (src/PlugPredict.py,
src/api.py).  Timestamps are modelled as natural numbers counting minutes
since an epoch that falls on a Monday at 00:00 (so `dayofweek t = t / 1440 % 7`
matches pandas' Monday-is-0 convention).  Real-valued numpy arrays are
modelled as `List ℝ`; a raw label cell, as produced by `pd.read_csv` before
`astype(int)`, is an `Option ℤ` (`none` means the cell does not parse as an
integer, in which case `astype` raises).
-/

namespace PlugPredict

/-- np.clip(z, lo, hi) = np.minimum(np.maximum(z, lo), hi). -/
noncomputable def clip (z lo hi : ℝ) : ℝ := min (max z lo) hi

/-- `sigmoid` from PlugPredict.py lines 10-13: clips z to [-500, 500] and
returns 1/(1+exp(-z)). -/
noncomputable def sigmoid (z : ℝ) : ℝ := 1 / (1 + Real.exp (-(clip z (-500) 500)))

/-- `add_bias` from PlugPredict.py lines 15-17: prepend a constant-1 column. -/
def add_bias (X : List (List ℝ)) : List (List ℝ) := X.map (fun row => (1 : ℝ) :: row)

/-- Dot product of two vectors (numpy `@` on aligned 1-d arrays). -/
def dot (v w : List ℝ) : ℝ := (List.zipWith (fun a b => a * b) v w).sum

/-- Elementwise sum of two vectors. -/
def vadd (v w : List ℝ) : List ℝ := List.zipWith (fun a b => a + b) v w

/-- Elementwise difference of two vectors. -/
def vsub (v w : List ℝ) : List ℝ := List.zipWith (fun a b => a - b) v w

/-- Scalar times vector. -/
def smul (c : ℝ) (v : List ℝ) : List ℝ := v.map (fun x => c * x)

/-- Column j of a row-major matrix (rows are all length > j in actual use). -/
def colD (M : List (List ℝ)) (j : ℕ) : List ℝ := M.map (fun r => r.getD j 0)

/-- `M.T @ v` for a matrix whose static column count is k (numpy knows the
shape (N, k) of the array, so the result always has length k). -/
def matTvec (k : ℕ) (M : List (List ℝ)) (v : List ℝ) : List ℝ :=
  (List.range k).map (fun j => dot (colD M j) v)

/-- np.linalg.norm: the Euclidean norm. -/
noncomputable def euclidean_norm (v : List ℝ) : ℝ :=
  Real.sqrt ((v.map (fun x => x * x)).sum)

/-- `predict_logistic_regression` from PlugPredict.py lines 19-21:
sigmoid(X @ w) elementwise. -/
noncomputable def predict_logistic_regression (X : List (List ℝ)) (w : List ℝ) : List ℝ :=
  X.map (fun row => sigmoid (dot row w))

/-- Default of `learning_rate` in the signature of `logistic_regression_train`
(PlugPredict.py line 26). -/
def learning_rate_default : ℝ := 0.05

/-- Default of `iterations` in the signature of `logistic_regression_train`
(PlugPredict.py line 27). -/
def iterations_default : ℕ := 3000

/-- Default of `l2` in the signature of `logistic_regression_train`
(PlugPredict.py line 28: `l2: float = 0.0`). -/
def l2_default : ℝ := 0

/-- One iteration of the training loop (PlugPredict.py lines 36-44), for a
bias-extended matrix `Xb` of static width d+1.  Returns (updated weights,
gradient); the Python loop breaks after the update when the gradient norm is
small, so both are needed by the loop. -/
noncomputable def logistic_regression_step (d : ℕ) (Xb : List (List ℝ)) (y : List ℝ)
    (learning_rate l2 : ℝ) (w : List ℝ) : List ℝ × List ℝ :=
  let y_pred := Xb.map (fun row => sigmoid (dot row w))
  let g := (matTvec (d + 1) Xb (vsub y_pred y)).map (fun x => x / (y.length : ℝ))
  let gradient := if l2 > 0 then vadd g (smul l2 ((0 : ℝ) :: w.tail)) else g
  (vsub w (smul learning_rate gradient), gradient)

/-- The `for _ in range(iterations)` loop of PlugPredict.py lines 35-48:
update the weights each round and stop early (returning the updated weights)
once the gradient's Euclidean norm drops below 1e-6. -/
noncomputable def logistic_regression_loop (d : ℕ) (Xb : List (List ℝ)) (y : List ℝ)
    (learning_rate l2 : ℝ) : ℕ → List ℝ → List ℝ
  | 0, w => w
  | Nat.succ k, w =>
    let p := logistic_regression_step d Xb y learning_rate l2 w
    if euclidean_norm p.2 < 1e-6 then p.1
    else logistic_regression_loop d Xb y learning_rate l2 k p.1

/-- `logistic_regression_train` from PlugPredict.py lines 23-50, for a feature
matrix of static width d (so `np.zeros(Xb.shape[1])` is d+1 zeros). -/
noncomputable def logistic_regression_train (d : ℕ) (X : List (List ℝ)) (y : List ℝ)
    (learning_rate : ℝ) (iterations : ℕ) (l2 : ℝ) : List ℝ :=
  logistic_regression_loop d (add_bias X) y learning_rate l2 iterations
    (List.replicate (d + 1) (0 : ℝ))

/-- Errors that the data-loading stage of the pipeline can raise:
`emptyData` is pandas.errors.EmptyDataError from `pd.read_csv` on an empty
file; `badLabel` is the ValueError from `.astype(int)` on a label cell that
does not parse as an integer; `duplicateIndex` is the ValueError raised by
`asfreq`/`reindex` when the timestamp index contains duplicates. -/
inductive LoadError where
  | emptyData
  | badLabel
  | duplicateIndex
deriving DecidableEq

/-- Order on parsed rows by timestamp (`df.sort_values('timestamp')`). -/
def byKey (a b : ℕ × ℤ) : Prop := a.1 ≤ b.1

instance : DecidableRel byKey := fun a b => inferInstanceAs (Decidable (a.1 ≤ b.1))

instance : IsTotal (ℕ × ℤ) byKey := ⟨fun a b => Nat.le_total a.1 b.1⟩

instance : IsTrans (ℕ × ℤ) byKey := ⟨fun _ _ _ => Nat.le_trans⟩

/-- `pd.date_range(start, periods = k, freq = '5min')` in minutes:
k consecutive 5-minute steps beginning at `start`. -/
def gridFrom (start : ℕ) : ℕ → List ℕ
  | 0 => []
  | Nat.succ k => start :: gridFrom (start + 5) k

/-- The value `asfreq` places at grid slot t: the input value whose index is
exactly t when one exists, else NaN, which `.fillna(0)` turns into 0. -/
def findLabel (rows : List (ℕ × ℤ)) (t : ℕ) : ℤ :=
  (((rows.find? (fun r => r.1 == t))).map Prod.snd).getD 0

/-- `load_txt_to_dataframe` from PlugPredict.py lines 56-67, modelled from the
point where `read_csv` has produced raw cells: parse labels with
`astype(int)`, sort by timestamp, and `asfreq('5min').fillna(0)` — reindex
onto the 5-minute grid running from the first to the last sorted timestamp,
filling unmatched slots with 0.  `asfreq` raises when the index has
duplicate timestamps. -/
def load_txt_to_dataframe (rows : List (ℕ × Option ℤ)) : Except LoadError (List (ℕ × ℤ)) :=
  if rows.isEmpty then .error .emptyData
  else if rows.any (fun r => r.2.isNone) then .error .badLabel
  else
    let parsed := rows.filterMap (fun r => r.2.map (fun v => (r.1, v)))
    let sorted := parsed.insertionSort byKey
    if (sorted.map Prod.fst).Nodup then
      let t0 := (sorted.map Prod.fst).headD 0
      let tend := (sorted.map Prod.fst).getLastD 0
      .ok ((gridFrom t0 ((tend - t0) / 5 + 1)).map (fun t => (t, findLabel sorted t)))
    else .error .duplicateIndex

/-- Hour of day of a timestamp (`df['timestamp'].dt.hour`). -/
def hourOf (t : ℕ) : ℕ := t / 60 % 24

/-- Minute within the hour (`df['timestamp'].dt.minute`). -/
def minuteOf (t : ℕ) : ℕ := t % 60

/-- Day of week, Monday = 0 (`df['timestamp'].dt.dayofweek`). -/
def dayofweek (t : ℕ) : ℕ := t / 1440 % 7

/-- Weekend indicator (`(df['dayofweek'] >= 5).astype(int)`). -/
def is_weekend (t : ℕ) : ℕ := if 5 ≤ dayofweek t then 1 else 0

/-- The 7 time features built in PlugPredict.py lines 83-99 (same order as
the `features` list): hour_sin, hour_cos, minute_sin, minute_cos, dow_sin,
dow_cos, is_weekend. -/
noncomputable def featureRow (t : ℕ) : List ℝ :=
  [Real.sin (2 * Real.pi * (hourOf t : ℝ) / 24),
   Real.cos (2 * Real.pi * (hourOf t : ℝ) / 24),
   Real.sin (2 * Real.pi * (minuteOf t : ℝ) / 60),
   Real.cos (2 * Real.pi * (minuteOf t : ℝ) / 60),
   Real.sin (2 * Real.pi * (dayofweek t : ℝ) / 7),
   Real.cos (2 * Real.pi * (dayofweek t : ℝ) / 7),
   (is_weekend t : ℝ)]

/-- `(y_prob >= threshold).astype(int)` (PlugPredict.py line 126). -/
noncomputable def threshold_binarize (y_prob : List ℝ) (threshold : ℝ) : List ℤ :=
  y_prob.map (fun p => if p ≥ threshold then (1 : ℤ) else 0)

/-- `forecast_12h_from_txt` from PlugPredict.py lines 73-131, modelled from
loading through the construction of the prediction records (the JSON/file
writing is outside the computational core): regularize the history, build
time features, train with the hard-coded call
`logistic_regression_train(X, y, learning_rate=0.05, iterations=3000,
l2=0.01)`, build 144 future 5-minute timestamps after the last historical
one, and binarize the predicted probabilities at the hard-coded 0.6. -/
noncomputable def forecast_12h_from_txt (rows : List (ℕ × Option ℤ)) :
    Except LoadError (List (ℕ × ℤ)) :=
  (load_txt_to_dataframe rows).map (fun df =>
    let X_train := df.map (fun r => featureRow r.1)
    let y_train := df.map (fun r => ((r.2 : ℤ) : ℝ))
    let last_timestamp := (df.map Prod.fst).foldl max 0
    let future_timestamps := gridFrom (last_timestamp + 5) 144
    let X_future := future_timestamps.map featureRow
    let model := logistic_regression_train 7 X_train y_train 0.05 3000 0.01
    let y_prob := predict_logistic_regression (add_bias X_future) model
    future_timestamps.zip (threshold_binarize y_prob 0.6))

/-- Default of the `threshold` query parameter of the API
(api.py line 31: `Query(0.6, ...)`). -/
def threshold_default : ℝ := 0.6

/-- One trainer iteration as worded by the specification: compute
p = sigmoid(Xb·w), the gradient (Xbᵀ·(p − y))/N, add l2·wᵢ to every gradient
component except the bias component (index 0) exactly when l2 > 0, and update
w ← w − learning_rate·gradient.  Stated over the 8-wide bias-extended matrix
the spec describes. -/
noncomputable def train_spec_step (Xb : List (List ℝ)) (y : List ℝ)
    (learning_rate l2 : ℝ) (w : List ℝ) : List ℝ × List ℝ :=
  let p := Xb.map (fun row => sigmoid (dot row w))
  let g := (matTvec 8 Xb (vsub p y)).map (fun x => x / (y.length : ℝ))
  let gradient :=
    if l2 > 0 then
      List.zipWith (fun a b => a + b) g
        (w.mapIdx (fun i wi => if i = 0 then (0 : ℝ) else l2 * wi))
    else g
  (List.zipWith (fun wi gi => wi - learning_rate * gi) w gradient, gradient)

/-- The spec's training loop: iterate `train_spec_step`, stopping after
`iterations` iterations or as soon as the Euclidean norm of the gradient
falls below 1e-6, whichever comes first, returning the final w. -/
noncomputable def train_spec_loop (Xb : List (List ℝ)) (y : List ℝ)
    (learning_rate l2 : ℝ) : ℕ → List ℝ → List ℝ
  | 0, w => w
  | Nat.succ k, w =>
    let q := train_spec_step Xb y learning_rate l2 w
    if euclidean_norm q.2 < 1e-6 then q.1
    else train_spec_loop Xb y learning_rate l2 k q.1

/-- The trainer as worded by the specification: prepend a constant 1.0 bias
column, initialize an 8-component weight vector to all zeros, and run the
spec's training loop. -/
noncomputable def logistic_regression_train_spec (X : List (List ℝ)) (y : List ℝ)
    (learning_rate : ℝ) (iterations : ℕ) (l2 : ℝ) : List ℝ :=
  train_spec_loop (X.map (fun row => (1 : ℝ) :: row)) y learning_rate l2 iterations
    (List.replicate 8 (0 : ℝ))

/-- The training loop with the L2-penalty lines (PlugPredict.py 40-42)
deleted: used to show that defaulted training applies no penalty at all. -/
noncomputable def logistic_regression_loop_noreg (d : ℕ) (Xb : List (List ℝ)) (y : List ℝ)
    (learning_rate : ℝ) : ℕ → List ℝ → List ℝ
  | 0, w => w
  | Nat.succ k, w =>
    let y_pred := Xb.map (fun row => sigmoid (dot row w))
    let g := (matTvec (d + 1) Xb (vsub y_pred y)).map (fun x => x / (y.length : ℝ))
    let w2 := vsub w (smul learning_rate g)
    if euclidean_norm g < 1e-6 then w2
    else logistic_regression_loop_noreg d Xb y learning_rate k w2

/-- The trainer with the L2-penalty lines deleted. -/
noncomputable def logistic_regression_train_noreg (d : ℕ) (X : List (List ℝ)) (y : List ℝ)
    (learning_rate : ℝ) (iterations : ℕ) : List ℝ :=
  logistic_regression_loop_noreg d (add_bias X) y learning_rate iterations
    (List.replicate (d + 1) (0 : ℝ))

/-- `compute_forecast` from api.py lines 29-52: saves the upload, then runs
`forecast_12h_from_txt(temp_path, output_folder)` — the `threshold` query
parameter is accepted but never passed on, so the body ignores it. -/
noncomputable def compute_forecast (rows : List (ℕ × Option ℤ)) (threshold : ℝ) :
    Except LoadError (List (ℕ × ℤ)) :=
  forecast_12h_from_txt rows

/-! ## Lemmas about the trainer -/

lemma mapIdx_const_fun (l2 : ℝ) : ∀ (l : List ℝ) (g : ℕ → ℝ → ℝ),
    (∀ i x, g i x = l2 * x) → l.mapIdx g = l.map (fun x => l2 * x) := by
  intro l
  induction l with
  | nil => intro g hg; rfl
  | cons a l ih =>
    intro g hg
    rw [List.mapIdx_cons, hg 0 a, List.map_cons, ih (fun i => g (i + 1)) (fun i x => hg (i + 1) x)]

lemma smul_bias_tail (l2 : ℝ) (w : List ℝ) (hw : w ≠ []) :
    smul l2 ((0 : ℝ) :: w.tail) =
      w.mapIdx (fun i wi => if i = 0 then (0 : ℝ) else l2 * wi) := by
  cases w with
  | nil => exact absurd rfl hw
  | cons a w' =>
    rw [List.mapIdx_cons]
    simp only [smul, List.map_cons, mul_zero, List.tail_cons, if_pos rfl]
    rw [mapIdx_const_fun l2 w' _ (fun i x => by simp)]
    simp

lemma step_eq_spec (Xb : List (List ℝ)) (y : List ℝ) (lr l2 : ℝ) (w : List ℝ)
    (hw : w ≠ []) :
    logistic_regression_step 7 Xb y lr l2 w = train_spec_step Xb y lr l2 w := by
  unfold logistic_regression_step train_spec_step
  rw [show (7 : ℕ) + 1 = 8 from rfl, smul_bias_tail l2 w hw]
  simp only [vadd, vsub, smul, List.zipWith_map_right]

lemma step_fst_ne_nil (d : ℕ) (Xb : List (List ℝ)) (y : List ℝ) (lr l2 : ℝ)
    (w : List ℝ) (hw : w ≠ []) :
    (logistic_regression_step d Xb y lr l2 w).1 ≠ [] := by
  unfold logistic_regression_step
  simp only [vsub, smul, vadd, matTvec]
  intro h
  rcases List.zipWith_eq_nil_iff.mp h with h1 | h2
  · exact hw h1
  · rcases List.map_eq_nil_iff.mp h2 with h3
    split at h3
    · rcases List.zipWith_eq_nil_iff.mp h3 with h4 | h5
      · simp at h4
      · simp at h5
    · simp at h3

lemma loop_eq_spec (Xb : List (List ℝ)) (y : List ℝ) (lr l2 : ℝ) :
    ∀ (k : ℕ) (w : List ℝ), w ≠ [] →
      logistic_regression_loop 7 Xb y lr l2 k w = train_spec_loop Xb y lr l2 k w := by
  intro k
  induction k with
  | zero => intro w _; rfl
  | succ k ih =>
    intro w hw
    show (let p := logistic_regression_step 7 Xb y lr l2 w;
          if euclidean_norm p.2 < 1e-6 then p.1
          else logistic_regression_loop 7 Xb y lr l2 k p.1) =
         (let q := train_spec_step Xb y lr l2 w;
          if euclidean_norm q.2 < 1e-6 then q.1
          else train_spec_loop Xb y lr l2 k q.1)
    rw [← step_eq_spec Xb y lr l2 w hw]
    have hne := step_fst_ne_nil 7 Xb y lr l2 w hw
    by_cases h : euclidean_norm (logistic_regression_step 7 Xb y lr l2 w).2 < 1e-6
    · simp only [if_pos h]
    · simp only [if_neg h]
      exact ih _ hne

/-- C1: `logistic_regression_train` (PlugPredict.py lines 23-50), applied to a
7-feature matrix, coincides with the algorithm exactly as the specification
words it: prepend a 1.0 bias column, start from 8 zero weights, each
iteration compute p = sigmoid(Xb·w) with the argument clamped to [-500, 500],
take gradient (Xbᵀ·(p − y))/N, add l2·wᵢ to every component except the bias
(index 0) exactly when l2 > 0, update w ← w − learning_rate·gradient, and
stop after `iterations` rounds or as soon as the gradient's Euclidean norm
falls below 1e-6, whichever comes first, returning the final w. -/
theorem logistic_regression_train_matches_spec (X : List (List ℝ)) (y : List ℝ)
    (learning_rate : ℝ) (iterations : ℕ) (l2 : ℝ) :
    logistic_regression_train 7 X y learning_rate iterations l2 =
      logistic_regression_train_spec X y learning_rate iterations l2 := by
  unfold logistic_regression_train logistic_regression_train_spec add_bias
  exact loop_eq_spec (X.map (fun row => (1 : ℝ) :: row)) y learning_rate l2 iterations _
    (by simp)

lemma loop_zero_l2_eq_noreg (d : ℕ) (Xb : List (List ℝ)) (y : List ℝ) (lr : ℝ) :
    ∀ (k : ℕ) (w : List ℝ),
      logistic_regression_loop d Xb y lr 0 k w =
        logistic_regression_loop_noreg d Xb y lr k w := by
  intro k
  induction k with
  | zero => intro w; rfl
  | succ k ih =>
    intro w
    simp only [logistic_regression_loop, logistic_regression_loop_noreg,
      logistic_regression_step, gt_iff_lt, lt_self_iff_false, if_false, ih]

/-- C4 counterexample: the claim says the default of `l2` is 0.01 and that a
fully-defaulted call regularizes; but PlugPredict.py line 28 declares
`l2: float = 0.0`, which is not 0.01 and does not satisfy the `l2 > 0` guard
of the penalty branch. -/
theorem default_l2_is_zero : l2_default = 0 ∧ l2_default ≠ 0.01 ∧ ¬ l2_default > 0 := by
  refine ⟨rfl, ?_, ?_⟩ <;> norm_num [l2_default]

/-- C4 (amended): the defaults in the signature of `logistic_regression_train`
are learning_rate = 0.05, iterations = 3000 and l2 = 0.0; training with the
defaulted l2 applies no L2 penalty at all — it coincides with the trainer
whose penalty lines are deleted.  (The 0.01 of the spec is the value the
pipeline call site passes explicitly, not the default.) -/
theorem train_defaults (X : List (List ℝ)) (y : List ℝ) (d iters : ℕ) (lr : ℝ) :
    learning_rate_default = 0.05 ∧ iterations_default = 3000 ∧ l2_default = 0 ∧
      logistic_regression_train d X y lr iters l2_default =
        logistic_regression_train_noreg d X y lr iters := by
  refine ⟨rfl, rfl, rfl, ?_⟩
  unfold logistic_regression_train logistic_regression_train_noreg l2_default
  exact loop_zero_l2_eq_noreg d (add_bias X) y lr iters _

/-- C7: the model's sigmoid is strictly inside (0, 1) for every real input,
the clamp keeps the exponent inside [-500, 500] for every real input, and an
extreme input such as z = 10000 is evaluated exactly as the clamp boundary
z = 500. -/
theorem sigmoid_bounded :
    (∀ z : ℝ, 0 < sigmoid z ∧ sigmoid z < 1) ∧
    (∀ z : ℝ, -500 ≤ clip z (-500) 500 ∧ clip z (-500) 500 ≤ 500) ∧
    sigmoid 10000 = sigmoid 500 := by
  refine ⟨fun z => ?_, fun z => ?_, ?_⟩
  · have he : 0 < Real.exp (-(clip z (-500) 500)) := Real.exp_pos _
    rw [sigmoid]
    constructor
    · positivity
    · rw [div_lt_one (by positivity)]
      linarith
  · exact ⟨le_min (le_max_right _ _) (by norm_num), min_le_right _ _⟩
  · have h1 : clip 10000 (-500) 500 = 500 := by
      rw [clip, max_eq_left (by norm_num), min_eq_right (by norm_num)]
    have h2 : clip 500 (-500) 500 = 500 := by
      rw [clip, max_eq_left (by norm_num), min_eq_right (by norm_num)]
    rw [sigmoid, sigmoid, h1, h2]

/-! ## Lemmas about the 5-minute grid -/

lemma gridFrom_length : ∀ (k a : ℕ), (gridFrom a k).length = k := by
  intro k
  induction k with
  | zero => intro a; rfl
  | succ k ih => intro a; simp [gridFrom, ih]

lemma gridFrom_getD : ∀ (k i a : ℕ), i < k → (gridFrom a k).getD i 0 = a + 5 * i := by
  intro k
  induction k with
  | zero => intro i a hi; omega
  | succ k ih =>
    intro i a hi
    cases i with
    | zero => simp [gridFrom]
    | succ i =>
      rw [show gridFrom a (Nat.succ k) = a :: gridFrom (a + 5) k from rfl,
        List.getD_cons_succ, ih i (a + 5) (by omega)]
      omega

lemma mem_gridFrom : ∀ (k a t : ℕ), t ∈ gridFrom a k ↔ ∃ i, i < k ∧ t = a + 5 * i := by
  intro k
  induction k with
  | zero => intro a t; simp [gridFrom]
  | succ k ih =>
    intro a t
    rw [show gridFrom a (Nat.succ k) = a :: gridFrom (a + 5) k from rfl, List.mem_cons, ih]
    constructor
    · rintro (rfl | ⟨i, hi, rfl⟩)
      · exact ⟨0, by omega, by omega⟩
      · exact ⟨i + 1, by omega, by omega⟩
    · rintro ⟨i, hi, rfl⟩
      cases i with
      | zero => left; omega
      | succ i => right; exact ⟨i, by omega, by omega⟩

lemma gridFrom_chain : ∀ (k a : ℕ), (gridFrom a k).Chain' (fun x y => y = x + 5) := by
  intro k
  induction k with
  | zero => intro a; exact List.chain'_nil
  | succ k ih =>
    intro a
    rw [show gridFrom a (Nat.succ k) = a :: gridFrom (a + 5) k from rfl, List.chain'_cons']
    refine ⟨?_, ih (a + 5)⟩
    intro y hy
    cases k with
    | zero => simp [gridFrom] at hy
    | succ k =>
      rw [show gridFrom (a + 5) (Nat.succ k) = (a + 5) :: gridFrom (a + 5 + 5) k from rfl] at hy
      simp at hy
      omega

lemma gridFrom_pairwise : ∀ (k a : ℕ), (gridFrom a k).Pairwise (fun x y => x < y) := by
  intro k
  induction k with
  | zero => intro a; exact List.Pairwise.nil
  | succ k ih =>
    intro a
    rw [show gridFrom a (Nat.succ k) = a :: gridFrom (a + 5) k from rfl, List.pairwise_cons]
    refine ⟨?_, ih (a + 5)⟩
    intro t ht
    obtain ⟨i, _, rfl⟩ := (mem_gridFrom k (a + 5) t).mp ht
    omega

lemma gridFrom_getLastD : ∀ (k a d : ℕ), (gridFrom a (k + 1)).getLastD d = a + 5 * k := by
  intro k
  induction k with
  | zero => intro a d; rfl
  | succ k ih =>
    intro a d
    rw [show gridFrom a (k + 1 + 1) = a :: gridFrom (a + 5) (k + 1) from rfl,
      List.getLastD_cons, ih (a + 5) a]
    omega

/-! ## Lemmas about sorted timestamp lists -/

lemma mem_headD_nat : ∀ (l : List ℕ), l ≠ [] → l.headD 0 ∈ l := by
  intro l hl
  cases l with
  | nil => exact absurd rfl hl
  | cons a l => exact List.mem_cons_self a l

lemma mem_getLastD_nat : ∀ (l : List ℕ), l ≠ [] → l.getLastD 0 ∈ l := by
  intro l
  induction l with
  | nil => intro h; exact absurd rfl h
  | cons a l ih =>
    intro _
    cases hl : l with
    | nil => simp
    | cons b l' =>
      rw [List.getLastD_cons, ← hl]
      exact List.mem_cons_of_mem a (hl ▸ ih (by simp [hl]))

lemma sorted_headD_le (l : List ℕ) (hs : l.Sorted (fun x y => x ≤ y)) :
    ∀ x ∈ l, l.headD 0 ≤ x := by
  cases l with
  | nil => intro x hx; simp at hx
  | cons a l =>
    intro x hx
    rcases List.mem_cons.mp hx with rfl | hx
    · exact le_refl _
    · exact (List.sorted_cons.mp hs).1 x hx

lemma getLastD_indep : ∀ (l : List ℕ) (d : ℕ), l ≠ [] → l.getLastD d = l.getLastD 0 := by
  intro l d hl
  cases l with
  | nil => exact absurd rfl hl
  | cons a l => rw [List.getLastD_cons, List.getLastD_cons]

lemma sorted_le_getLastD : ∀ (l : List ℕ), l.Sorted (fun x y => x ≤ y) →
    ∀ x ∈ l, x ≤ l.getLastD 0 := by
  intro l
  induction l with
  | nil => intro _ x hx; simp at hx
  | cons a l ih =>
    intro hs x hx
    obtain ⟨ha, hsl⟩ := List.sorted_cons.mp hs
    by_cases hl : l = []
    · subst hl
      rcases List.mem_cons.mp hx with rfl | hx
      · simp
      · simp at hx
    · have hlast : (a :: l).getLastD 0 = l.getLastD 0 := by
        rw [List.getLastD_cons, getLastD_indep l a hl]
      rw [hlast]
      rcases List.mem_cons.mp hx with rfl | hx
      · exact ha _ (mem_getLastD_nat l hl)
      · exact ih hsl x hx

/-! ## Lemmas about the regularizer -/

lemma parsed_keys : ∀ (rows : List (ℕ × Option ℤ)), (∀ r ∈ rows, r.2.isSome) →
    (rows.filterMap (fun r => r.2.map (fun v => (r.1, v)))).map Prod.fst =
      rows.map Prod.fst := by
  intro rows
  induction rows with
  | nil => intro _; rfl
  | cons r rows ih =>
    intro h2
    obtain ⟨v, hv⟩ := Option.isSome_iff_exists.mp (h2 r (List.mem_cons_self r rows))
    simp only [List.filterMap_cons, hv, Option.map_some', List.map_cons]
    rw [ih (fun x hx => h2 x (List.mem_cons_of_mem r hx))]

lemma sorted_keys_perm (rows : List (ℕ × Option ℤ)) (h2 : ∀ r ∈ rows, r.2.isSome) :
    List.Perm
      (((rows.filterMap (fun r => r.2.map (fun v => (r.1, v)))).insertionSort byKey).map
        Prod.fst)
      (rows.map Prod.fst) := by
  have h :=
    (List.perm_insertionSort byKey
      (rows.filterMap (fun r => r.2.map (fun v => (r.1, v))))).map Prod.fst
  rw [parsed_keys rows h2] at h
  exact h

lemma sorted_keys_sorted (parsed : List (ℕ × ℤ)) :
    ((parsed.insertionSort byKey).map Prod.fst).Sorted (fun x y => x ≤ y) :=
  List.Pairwise.map Prod.fst (fun _ _ hab => hab) (List.sorted_insertionSort byKey parsed)

lemma load_ok_spec (rows : List (ℕ × Option ℤ)) (h1 : rows ≠ [])
    (h2 : ∀ r ∈ rows, r.2.isSome) (h3 : (rows.map Prod.fst).Nodup) :
    ∃ (t0 tend : ℕ) (df : List (ℕ × ℤ)),
      load_txt_to_dataframe rows = .ok df ∧
      t0 ∈ rows.map Prod.fst ∧ (∀ t ∈ rows.map Prod.fst, t0 ≤ t) ∧
      tend ∈ rows.map Prod.fst ∧ (∀ t ∈ rows.map Prod.fst, t ≤ tend) ∧
      df = (gridFrom t0 ((tend - t0) / 5 + 1)).map
        (fun t => (t, findLabel
          ((rows.filterMap (fun r => r.2.map (fun v => (r.1, v)))).insertionSort byKey) t)) ∧
      (∀ p ∈ df, (∀ r ∈ rows, r.1 ≠ p.1) → p.2 = 0) := by
  have hanyf : rows.any (fun r => r.2.isNone) = false := by
    rw [List.any_eq_false]
    intro r hr
    cases hr2 : r.2 with
    | none =>
      have hs := h2 r hr
      rw [hr2] at hs
      simp at hs
    | some v => simp [hr2]
  set parsed := rows.filterMap (fun r => r.2.map (fun v => (r.1, v))) with hparsed
  set sorted := parsed.insertionSort byKey with hsorted
  set ks := sorted.map Prod.fst with hks
  have hperm : List.Perm ks (rows.map Prod.fst) := sorted_keys_perm rows h2
  have hsortks : ks.Sorted (fun x y => x ≤ y) := sorted_keys_sorted parsed
  have hksne : ks ≠ [] := by
    intro h
    have h0 : rows.map Prod.fst = [] := (h ▸ hperm).symm.eq_nil
    exact h1 (List.map_eq_nil_iff.mp h0)
  have hnd : ks.Nodup := hperm.nodup_iff.mpr h3
  refine ⟨ks.headD 0, ks.getLastD 0,
    (gridFrom (ks.headD 0) ((ks.getLastD 0 - ks.headD 0) / 5 + 1)).map
      (fun t => (t, findLabel sorted t)), ?_, ?_, ?_, ?_, ?_, rfl, ?_⟩
  · show load_txt_to_dataframe rows = _
    unfold load_txt_to_dataframe
    rw [if_neg (by simp [h1]), if_neg (by simp [hanyf])]
    show (if ks.Nodup then
        Except.ok ((gridFrom (ks.headD 0) ((ks.getLastD 0 - ks.headD 0) / 5 + 1)).map
          (fun t => (t, findLabel sorted t)))
      else Except.error LoadError.duplicateIndex) = _
    rw [if_pos hnd]
  · exact hperm.mem_iff.mp (mem_headD_nat ks hksne)
  · exact fun t ht => sorted_headD_le ks hsortks t (hperm.mem_iff.mpr ht)
  · exact hperm.mem_iff.mp (mem_getLastD_nat ks hksne)
  · exact fun t ht => sorted_le_getLastD ks hsortks t (hperm.mem_iff.mpr ht)
  · intro p hp hnot
    obtain ⟨t, _, rfl⟩ := List.mem_map.mp hp
    show findLabel sorted t = 0
    have hfind : sorted.find? (fun q => q.1 == t) = none := by
      rw [List.find?_eq_none]
      intro q hq
      have hqk : q.1 ∈ rows.map Prod.fst := hperm.mem_iff.mp (List.mem_map_of_mem Prod.fst hq)
      obtain ⟨r, hr, hrq⟩ := List.mem_map.mp hqk
      simpa using hrq ▸ hnot r hr
    unfold findLabel
    rw [hfind]
    rfl

lemma load_error_iff (rows : List (ℕ × Option ℤ)) :
    (∃ e, load_txt_to_dataframe rows = .error e) ↔
      (rows = [] ∨ (∃ r ∈ rows, r.2 = none) ∨ ¬ (rows.map Prod.fst).Nodup) := by
  by_cases h1 : rows = []
  · subst h1
    simp [load_txt_to_dataframe]
  · by_cases h2 : ∃ r ∈ rows, r.2 = none
    · have hany : rows.any (fun r => r.2.isNone) = true := by
        obtain ⟨r, hr, hnone⟩ := h2
        exact List.any_eq_true.mpr ⟨r, hr, by simp [hnone]⟩
      have hload : load_txt_to_dataframe rows = .error .badLabel := by
        unfold load_txt_to_dataframe
        rw [if_neg (by simp [h1]), if_pos (by simp [hany])]
      simp [hload, h2]
    · have h2' : ∀ r ∈ rows, r.2.isSome := by
        intro r hr
        rcases hr2 : r.2 with _ | v
        · exact absurd ⟨r, hr, hr2⟩ h2
        · rfl
      by_cases h3 : (rows.map Prod.fst).Nodup
      · obtain ⟨t0, tend, df, hok, _⟩ := load_ok_spec rows h1 h2' h3
        simp [hok, h1, h2, h3]
      · have hany : rows.any (fun r => r.2.isNone) = false := by
          rw [List.any_eq_false]
          intro r hr
          simp [Option.isNone_iff_eq_none]
          intro hnone
          exact h2 ⟨r, hr, hnone⟩
        have hsnd :
            ¬ (((rows.filterMap (fun r => r.2.map (fun v => (r.1, v)))).insertionSort
              byKey).map Prod.fst).Nodup := by
          rw [(sorted_keys_perm rows h2').nodup_iff]
          exact h3
        have hload : load_txt_to_dataframe rows = .error .duplicateIndex := by
          unfold load_txt_to_dataframe
          rw [if_neg (by simp [h1]), if_neg (by simp [hany]), if_neg hsnd]
        simp [hload, h3]

lemma map_fst_pairing : ∀ (l : List ℕ) (g : ℕ → ℤ),
    (l.map (fun t => (t, g t))).map Prod.fst = l := by
  intro l g
  induction l with
  | nil => rfl
  | cons a l ih => simp only [List.map_cons, ih]

/-- C5 (amended): for every non-empty historical input whose labels all parse
and whose timestamps are distinct, the regularized series has strictly
increasing timestamps, consecutive timestamps differ by exactly 5 minutes,
the series is the gap-free 5-minute grid anchored at the minimum input
timestamp and running to the last grid point at or before the maximum input
timestamp (which can fall short of the maximum itself — see the
counterexample), and every grid slot with no exactly matching input
observation carries label 0. -/
theorem regularize_grid_properties (rows : List (ℕ × Option ℤ)) (h1 : rows ≠ [])
    (h2 : ∀ r ∈ rows, r.2.isSome) (h3 : (rows.map Prod.fst).Nodup) :
    ∃ (t0 tend : ℕ) (df : List (ℕ × ℤ)),
      load_txt_to_dataframe rows = .ok df ∧
      t0 ∈ rows.map Prod.fst ∧ (∀ t ∈ rows.map Prod.fst, t0 ≤ t) ∧
      tend ∈ rows.map Prod.fst ∧ (∀ t ∈ rows.map Prod.fst, t ≤ tend) ∧
      df.map Prod.fst = gridFrom t0 ((tend - t0) / 5 + 1) ∧
      (df.map Prod.fst).Pairwise (fun a b => a < b) ∧
      (df.map Prod.fst).Chain' (fun a b => b = a + 5) ∧
      (∀ p ∈ df, (∀ r ∈ rows, r.1 ≠ p.1) → p.2 = 0) := by
  obtain ⟨t0, tend, df, hok, hm1, hmin, hm2, hmax, hdf, hzero⟩ := load_ok_spec rows h1 h2 h3
  have hkeys : df.map Prod.fst = gridFrom t0 ((tend - t0) / 5 + 1) := by
    rw [hdf, map_fst_pairing]
  exact ⟨t0, tend, df, hok, hm1, hmin, hm2, hmax, hkeys,
    by rw [hkeys]; exact gridFrom_pairwise _ _,
    by rw [hkeys]; exact gridFrom_chain _ _, hzero⟩

/-- Witness for C5 at the concrete input [(0, 1), (5, 0), (15, 1)]. -/
theorem regularize_grid_properties_witness :
    ∃ (t0 tend : ℕ) (df : List (ℕ × ℤ)),
      load_txt_to_dataframe [(0, some 1), (5, some 0), (15, some 1)] = .ok df ∧
      t0 ∈ [((0 : ℕ), (some 1 : Option ℤ)), (5, some 0), (15, some 1)].map Prod.fst ∧
      (∀ t ∈ [((0 : ℕ), (some 1 : Option ℤ)), (5, some 0), (15, some 1)].map Prod.fst,
        t0 ≤ t) ∧
      tend ∈ [((0 : ℕ), (some 1 : Option ℤ)), (5, some 0), (15, some 1)].map Prod.fst ∧
      (∀ t ∈ [((0 : ℕ), (some 1 : Option ℤ)), (5, some 0), (15, some 1)].map Prod.fst,
        t ≤ tend) ∧
      df.map Prod.fst = gridFrom t0 ((tend - t0) / 5 + 1) ∧
      (df.map Prod.fst).Pairwise (fun a b => a < b) ∧
      (df.map Prod.fst).Chain' (fun a b => b = a + 5) ∧
      (∀ p ∈ df,
        (∀ r ∈ [((0 : ℕ), (some 1 : Option ℤ)), (5, some 0), (15, some 1)], r.1 ≠ p.1) →
          p.2 = 0) :=
  regularize_grid_properties [(0, some 1), (5, some 0), (15, some 1)]
    (by decide) (by decide) (by decide)

/-- C5 counterexample: for the parseable, duplicate-free input with
timestamps 0 and 7, the regularized output is [(0, 1), (5, 0)]: the grid
stops at 5 and does not reach the maximum input timestamp 7, so the output
does not cover the range [min, max] as the claim states. -/
theorem regularize_gap_at_max :
    load_txt_to_dataframe [(0, some 1), (7, some 0)] = .ok [(0, 1), (5, 0)] ∧
      (7 : ℕ) ∈ ([((0 : ℕ), (some 1 : Option ℤ)), (7, some 0)].map Prod.fst) ∧
      (7 : ℕ) ∉ ([((0 : ℕ), (1 : ℤ)), (5, 0)].map Prod.fst) := by
  refine ⟨by rfl, by decide, by decide⟩

/-- C6 (amended): the regularizer fails exactly when the input is empty, some
label cell does not parse as an integer, or two rows share a timestamp.  A
label parsing to an integer other than 0/1 (for example 2) is accepted, not
rejected — see the counterexample — and the failures are the underlying
pandas exceptions; no dedicated MalformedInputError type exists in the
code. -/
theorem load_fails_iff (rows : List (ℕ × Option ℤ)) :
    (∃ e, load_txt_to_dataframe rows = .error e) ↔
      (rows = [] ∨ (∃ r ∈ rows, r.2 = none) ∨ ¬ (rows.map Prod.fst).Nodup) :=
  load_error_iff rows

/-- C6 counterexample: a row whose label parses as the integer 2 (neither 0
nor 1) is accepted by the regularizer, which returns a series carrying label
2 instead of raising an error as the claim requires. -/
theorem label_two_accepted :
    load_txt_to_dataframe [(0, some 2), (5, some 0)] = .ok [(0, 2), (5, 0)] := by
  rfl

/-- C9: the regularizer's grid is anchored at the earliest input timestamp;
every input row whose offset from that anchor is not a multiple of 5 minutes
is silently dropped (its timestamp never appears in the output), grid slots
with no exact-match observation get label 0, and the output ends at the last
grid point at or before the maximum input timestamp, which can be strictly
before the maximum. -/
theorem offgrid_rows_discarded (rows : List (ℕ × Option ℤ)) (h1 : rows ≠ [])
    (h2 : ∀ r ∈ rows, r.2.isSome) (h3 : (rows.map Prod.fst).Nodup) :
    ∃ (t0 tend : ℕ) (df : List (ℕ × ℤ)),
      load_txt_to_dataframe rows = .ok df ∧
      t0 ∈ rows.map Prod.fst ∧ (∀ t ∈ rows.map Prod.fst, t0 ≤ t) ∧
      tend ∈ rows.map Prod.fst ∧ (∀ t ∈ rows.map Prod.fst, t ≤ tend) ∧
      df.map Prod.fst = gridFrom t0 ((tend - t0) / 5 + 1) ∧
      (∀ r ∈ rows, (r.1 - t0) % 5 ≠ 0 → r.1 ∉ df.map Prod.fst) ∧
      (∀ p ∈ df, (∀ r ∈ rows, r.1 ≠ p.1) → p.2 = 0) ∧
      (df.map Prod.fst).getLastD 0 = t0 + 5 * ((tend - t0) / 5) ∧
      t0 + 5 * ((tend - t0) / 5) ≤ tend := by
  obtain ⟨t0, tend, df, hok, hm1, hmin, hm2, hmax, hdf, hzero⟩ := load_ok_spec rows h1 h2 h3
  have hkeys : df.map Prod.fst = gridFrom t0 ((tend - t0) / 5 + 1) := by
    rw [hdf, map_fst_pairing]
  have ht0tend : t0 ≤ tend := hmin tend hm2
  refine ⟨t0, tend, df, hok, hm1, hmin, hm2, hmax, hkeys, ?_, hzero, ?_, ?_⟩
  · intro r hr hmod hmem
    rw [hkeys] at hmem
    obtain ⟨i, hi, hieq⟩ := (mem_gridFrom _ _ _).mp hmem
    omega
  · rw [hkeys, gridFrom_getLastD]
  · omega

/-- Witness for C9 at the concrete input [(0, 0), (3, 1), (10, 1)]: the
observation at timestamp 3 is off-grid and is discarded. -/
theorem offgrid_rows_discarded_witness :
    ∃ (t0 tend : ℕ) (df : List (ℕ × ℤ)),
      load_txt_to_dataframe [(0, some 0), (3, some 1), (10, some 1)] = .ok df ∧
      t0 ∈ [((0 : ℕ), (some 0 : Option ℤ)), (3, some 1), (10, some 1)].map Prod.fst ∧
      (∀ t ∈ [((0 : ℕ), (some 0 : Option ℤ)), (3, some 1), (10, some 1)].map Prod.fst,
        t0 ≤ t) ∧
      tend ∈ [((0 : ℕ), (some 0 : Option ℤ)), (3, some 1), (10, some 1)].map Prod.fst ∧
      (∀ t ∈ [((0 : ℕ), (some 0 : Option ℤ)), (3, some 1), (10, some 1)].map Prod.fst,
        t ≤ tend) ∧
      df.map Prod.fst = gridFrom t0 ((tend - t0) / 5 + 1) ∧
      (∀ r ∈ [((0 : ℕ), (some 0 : Option ℤ)), (3, some 1), (10, some 1)],
        (r.1 - t0) % 5 ≠ 0 → r.1 ∉ df.map Prod.fst) ∧
      (∀ p ∈ df,
        (∀ r ∈ [((0 : ℕ), (some 0 : Option ℤ)), (3, some 1), (10, some 1)], r.1 ≠ p.1) →
          p.2 = 0) ∧
      (df.map Prod.fst).getLastD 0 = t0 + 5 * ((tend - t0) / 5) ∧
      t0 + 5 * ((tend - t0) / 5) ≤ tend :=
  offgrid_rows_discarded [(0, some 0), (3, some 1), (10, some 1)]
    (by decide) (by decide) (by decide)

/-- C10: any input containing two rows with the same timestamp makes the
regularizer raise an error (pandas reindex/asfreq rejects a duplicate
timestamp index) rather than resolving the duplicate, so no forecast is
produced for such inputs. -/
theorem duplicate_timestamps_raise (rows : List (ℕ × Option ℤ))
    (h : ¬ (rows.map Prod.fst).Nodup) :
    ∃ e, load_txt_to_dataframe rows = .error e :=
  (load_error_iff rows).mpr (Or.inr (Or.inr h))

/-- Witness for C10 at the concrete duplicate-timestamp input
[(0, 1), (0, 0)]. -/
theorem duplicate_timestamps_raise_witness :
    ∃ e, load_txt_to_dataframe [(0, some 1), (0, some 0)] = .error e :=
  duplicate_timestamps_raise [(0, some 1), (0, some 0)] (by decide)

/-! ## Lemmas about the forecaster -/

lemma zip_self_map (g : ℕ → ℤ) : ∀ (l : List ℕ),
    l.zip (l.map g) = l.map (fun a => (a, g a)) := by
  intro l
  induction l with
  | nil => rfl
  | cons a l ih => simp only [List.map_cons, List.zip_cons_cons, ih]

lemma dot_replicate_zero : ∀ (v : List ℝ) (n : ℕ), dot v (List.replicate n 0) = 0 := by
  intro v
  induction v with
  | nil => intro n; rfl
  | cons a v ih =>
    intro n
    cases n with
    | zero => rfl
    | succ n =>
      unfold dot
      rw [List.replicate_succ, List.zipWith_cons_cons, List.sum_cons, mul_zero, zero_add]
      exact ih n

lemma sigmoid_zero : sigmoid 0 = 1 / 2 := by
  unfold sigmoid clip
  rw [max_eq_left (by norm_num), min_eq_left (by norm_num), neg_zero, Real.exp_zero]
  norm_num

lemma map_eq_replicate_of_const {α : Type} (f : α → ℝ) (c : ℝ) (h : ∀ a, f a = c) :
    ∀ (l : List α), l.map f = List.replicate l.length c := by
  intro l
  induction l with
  | nil => rfl
  | cons a l ih => simp only [List.map_cons, h, ih, List.replicate_succ, List.length_cons]

lemma forecast_ok_eq (rows : List (ℕ × Option ℤ)) (df : List (ℕ × ℤ))
    (h : load_txt_to_dataframe rows = .ok df) :
    forecast_12h_from_txt rows =
      .ok ((gridFrom ((df.map Prod.fst).foldl max 0 + 5) 144).map
        (fun t => (t,
          if sigmoid (dot ((1 : ℝ) :: featureRow t)
              (logistic_regression_train 7 (df.map (fun r => featureRow r.1))
                (df.map (fun r => ((r.2 : ℤ) : ℝ))) 0.05 3000 0.01)) ≥ 0.6
          then (1 : ℤ) else 0))) := by
  unfold forecast_12h_from_txt
  rw [h]
  show Except.ok _ = _
  unfold predict_logistic_regression add_bias threshold_binarize
  dsimp only
  rw [List.map_map, List.map_map, List.map_map, zip_self_map]
  rfl

lemma count_binarize_antitone (t1 t2 : ℝ) (h : t1 ≤ t2) :
    ∀ (ps : List ℝ),
      (threshold_binarize ps t2).count 1 ≤ (threshold_binarize ps t1).count 1 := by
  intro ps
  induction ps with
  | nil => exact le_refl _
  | cons p ps ih =>
    show ((if p ≥ t2 then (1 : ℤ) else 0) :: threshold_binarize ps t2).count 1 ≤
      ((if p ≥ t1 then (1 : ℤ) else 0) :: threshold_binarize ps t1).count 1
    rw [List.count_cons, List.count_cons]
    refine Nat.add_le_add ih ?_
    by_cases h2 : p ≥ t2
    · rw [if_pos h2, if_pos (le_trans h h2)]
    · by_cases h1 : p ≥ t1 <;> simp [h2, h1]

/-- C2: whenever the history loads, the pipeline's forecast is `.ok` with
exactly 144 points, whatever the input length; point i (0-based) carries
timestamp last + 5·(i+1), where last is the maximum regularized timestamp,
and each point's value is 1 exactly when the trained model's probability for
that timestamp is ≥ the pipeline's 0.6 threshold and 0 otherwise. -/
theorem forecast_returns_144 (rows : List (ℕ × Option ℤ)) (df : List (ℕ × ℤ))
    (h : load_txt_to_dataframe rows = .ok df) :
    ∃ pts : List (ℕ × ℤ),
      forecast_12h_from_txt rows = .ok pts ∧
      pts.length = 144 ∧
      (∀ i : ℕ, i < 144 →
        (pts.getD i (0, 0)).1 = (df.map Prod.fst).foldl max 0 + 5 * (i + 1)) ∧
      (∀ p ∈ pts,
        p.2 = if sigmoid (dot ((1 : ℝ) :: featureRow p.1)
            (logistic_regression_train 7 (df.map (fun r => featureRow r.1))
              (df.map (fun r => ((r.2 : ℤ) : ℝ))) 0.05 3000 0.01)) ≥ 0.6
          then 1 else 0) := by
  refine ⟨_, forecast_ok_eq rows df h, ?_, ?_, ?_⟩
  · rw [List.length_map, gridFrom_length]
  · intro i hi
    have hlen : i < (gridFrom ((df.map Prod.fst).foldl max 0 + 5) 144).length := by
      rw [gridFrom_length]
      exact hi
    have hlen2 : i < ((gridFrom ((df.map Prod.fst).foldl max 0 + 5) 144).map
        (fun t => (t,
          if sigmoid (dot ((1 : ℝ) :: featureRow t)
              (logistic_regression_train 7 (df.map (fun r => featureRow r.1))
                (df.map (fun r => ((r.2 : ℤ) : ℝ))) 0.05 3000 0.01)) ≥ 0.6
          then (1 : ℤ) else 0))).length := by
      rw [List.length_map]
      exact hlen
    rw [List.getD_eq_getElem _ _ hlen2, List.getElem_map]
    have hgd := gridFrom_getD 144 i ((df.map Prod.fst).foldl max 0 + 5) hi
    rw [List.getD_eq_getElem _ _ hlen] at hgd
    show (gridFrom ((df.map Prod.fst).foldl max 0 + 5) 144)[i] = _
    omega
  · intro p hp
    obtain ⟨t, _, rfl⟩ := List.mem_map.mp hp
    rfl

/-- Witness for C2 at the one-row history [(0, 1)]. -/
theorem forecast_returns_144_witness :
    ∃ pts : List (ℕ × ℤ),
      forecast_12h_from_txt [(0, some 1)] = .ok pts ∧
      pts.length = 144 ∧
      (∀ i : ℕ, i < 144 →
        (pts.getD i (0, 0)).1 =
          ([((0 : ℕ), (1 : ℤ))].map Prod.fst).foldl max 0 + 5 * (i + 1)) ∧
      (∀ p ∈ pts,
        p.2 = if sigmoid (dot ((1 : ℝ) :: featureRow p.1)
            (logistic_regression_train 7
              ([((0 : ℕ), (1 : ℤ))].map (fun r => featureRow r.1))
              ([((0 : ℕ), (1 : ℤ))].map (fun r => ((r.2 : ℤ) : ℝ))) 0.05 3000 0.01)) ≥ 0.6
          then 1 else 0) :=
  forecast_returns_144 [(0, some 1)] [(0, 1)] (by rfl)

/-- C3: the API's `threshold` query parameter has no effect on the output —
`compute_forecast` returns the identical forecast for every threshold value,
because api.py never passes the parameter into `forecast_12h_from_txt`,
which thresholds at the hard-coded 0.6.  Thresholding itself genuinely
depends on the threshold: with the all-zero weight vector every probability
is 1/2, so honest thresholding of the same 144 probabilities at 0.4 marks
all 144 points 1 while the hard-coded 0.6 marks none. -/
theorem compute_forecast_ignores_threshold :
    (∀ (rows : List (ℕ × Option ℤ)) (t : ℝ),
      compute_forecast rows t = compute_forecast rows threshold_default) ∧
    (threshold_binarize
      (predict_logistic_regression (add_bias ((gridFrom (0 + 5) 144).map featureRow))
        (List.replicate 8 0)) 0.4).count 1 = 144 ∧
    (threshold_binarize
      (predict_logistic_regression (add_bias ((gridFrom (0 + 5) 144).map featureRow))
        (List.replicate 8 0)) 0.6).count 1 = 0 := by
  have hprob : predict_logistic_regression
      (add_bias ((gridFrom (0 + 5) 144).map featureRow)) (List.replicate 8 0) =
      List.replicate 144 (1 / 2) := by
    unfold predict_logistic_regression add_bias
    rw [List.map_map, List.map_map]
    rw [map_eq_replicate_of_const _ (1 / 2)
      (fun t => by
        show sigmoid (dot ((1 : ℝ) :: featureRow t) (List.replicate 8 0)) = 1 / 2
        rw [dot_replicate_zero, sigmoid_zero]),
      gridFrom_length]
  refine ⟨fun rows t => rfl, ?_, ?_⟩
  · rw [hprob]
    unfold threshold_binarize
    rw [List.map_replicate, if_pos (by norm_num)]
    rw [List.count_replicate_self]
  · rw [hprob]
    unfold threshold_binarize
    rw [List.map_replicate, if_neg (by norm_num)]
    rw [List.count_replicate]
    rfl

/-- C8: for one fixed weight vector and the fixed 144-point future grid
following any last timestamp, the count of points predicted 1 is antitone in
the threshold: for t1 ≤ t2 (such as 0.6 and 0.9) the count at t2 is at most
the count at t1. -/
theorem predicted_ones_antitone (last : ℕ) (w : List ℝ) (t1 t2 : ℝ) (h : t1 ≤ t2) :
    (threshold_binarize
        (predict_logistic_regression
          (add_bias ((gridFrom (last + 5) 144).map featureRow)) w) t2).count 1 ≤
      (threshold_binarize
        (predict_logistic_regression
          (add_bias ((gridFrom (last + 5) 144).map featureRow)) w) t1).count 1 :=
  count_binarize_antitone t1 t2 h _

/-- Witness for C8 at last = 0, the all-zero weight vector and thresholds
0.6 ≤ 0.9. -/
theorem predicted_ones_antitone_witness :
    (threshold_binarize
        (predict_logistic_regression
          (add_bias ((gridFrom (0 + 5) 144).map featureRow))
          (List.replicate 8 0)) 0.9).count 1 ≤
      (threshold_binarize
        (predict_logistic_regression
          (add_bias ((gridFrom (0 + 5) 144).map featureRow))
          (List.replicate 8 0)) 0.6).count 1 :=
  predicted_ones_antitone 0 (List.replicate 8 0) 0.6 0.9 (by norm_num)

end PlugPredict
